import Mathlib

/-!
Shallow embedding of `src/operator/tensor/la_op.h` (linear-algebra operator
shape inference, arity dispatch and execution drivers) and verification of
its specified properties.

Modelling conventions:
* A tensor shape (`TShape`) is a list of natural-number extents; an unknown
  (not yet inferred) shape is the empty list (`ndim() == 0` in the source),
  and an extent of `0` inside a known-rank shape is an unknown dimension.
* The fatal `CHECK`/`LOG(FATAL)` conditions are modelled as `Except.error`
  with an explicit error taxonomy; a `return false` ("decline") is modelled
  as `Except.ok` with first component `false`; the in/out shape vectors,
  mutated through pointers in C++, are threaded explicitly and returned.
* Numerical kernels (the `laop` template policy) are opaque collaborators:
  they are modelled as a function from the list of input buffer contents to
  the list of contents they write into the output buffers (the policies
  overwrite their outputs as a pure function of the inputs; they never read
  prior output contents).
-/

namespace LaOp

/-- Element-type tags of buffers (the mshadow type flags relevant here). -/
inductive TypeFlag where
  | kFloat32
  | kFloat64
  | kFloat16
  | kUint8
  | kInt32
  deriving DecidableEq, Repr

/-- Per-output write-request modes (`OpReqType` in the source). -/
inductive OpReq where
  | kNullOp
  | kWriteTo
  | kWriteInplace
  | kAddTo
  deriving DecidableEq, Repr

/-- The fatal failure taxonomy of this core. -/
inductive LaError where
  | shapeMismatch
  | arityContractViolation
  | unsupportedElementType
  deriving DecidableEq, Repr

/-- A tensor shape: list of extents. `[]` is the unknown shape. -/
abbrev TShape := List Nat

/-- A tensor buffer: an element-type tag plus its (flattened) contents.
Models `TBlob`: the `FlatToKD`/`FlatTo1D` reshaping views of the source do
not change the underlying element sequence, so only the flat contents are
carried. -/
structure TBlob (α : Type) where
  type_flag_ : TypeFlag
  data : List α
  deriving DecidableEq, Repr

/-- Modelled from the spec: the checked shape assignment used by the
inference functions (`SHAPE_ASSIGN_CHECK` / `shape_assign` from
`operator_common.h`, which is not part of the provided sources). Per the
spec, inference functions "never overwrite a dimension that is already
known with a different value (checked assignment — mismatch is a hard
error), and they only ever fill in dimensions that are unknown". An
entirely unknown target (`[]`) is replaced by the proposed shape; a
known-rank target must agree with the proposal dimension-wise, unknown
(`0`) dimensions on either side being filled from the other; `none` means
the hard `ShapeMismatch` error. `dims_assign` carries out the
dimension-wise part on the zipped dimension pairs. -/
def dims_assign : List (Nat × Nat) → Option (List Nat)
  | [] => some []
  | p :: ps =>
    match (if p.1 = 0 then some p.2
           else if p.1 = p.2 ∨ p.2 = 0 then some p.1
           else none) with
    | none => none
    | some d =>
      match dims_assign ps with
      | none => none
      | some ds => some (d :: ds)

/-- Modelled from the spec: the shape-level part of the checked
assignment described on `dims_assign` above. -/
def shape_assign (y x : TShape) : Option TShape :=
  if y.length = 0 then some x
  else if y.length ≠ x.length then (if x.length = 0 then some y else none)
  else dims_assign (y.zip x)

/-- Parameters for general matrix-matrix multiply-accumulate
(`LaMatrixMacParam`), with the documented defaults. -/
structure LaMatrixMacParam where
  transpose_a : Bool := false
  transpose_b : Bool := false
  alpha : Rat := 1
  beta : Rat := 1

/-- Parameters for general matrix-matrix multiply (`LaMatrixMultParam`),
with the documented defaults. -/
structure LaMatrixMultParam where
  transpose_a : Bool := false
  transpose_b : Bool := false
  alpha : Rat := 1

/-- Parameters for triangular matrix-matrix multiply
(`LaTriangMatrixMultParam`), with the documented defaults. -/
structure LaTriangMatrixMultParam where
  transpose : Bool := false
  rightside : Bool := false
  alpha : Rat := 1

/-- Shape inference for matrix mult and matrix mac
(`LaMatrixMultMacOpShape`). The source first extracts `transpose_a` and
`transpose_b` from either `LaMatrixMultParam` (two inputs) or
`LaMatrixMacParam` (three inputs); both extractions yield just the two
booleans, which are taken directly here.

Result: `error e` models a fatal `CHECK` failure; `ok (b, ins, outs)`
models returning `b` with the (possibly updated) attribute vectors. -/
def LaMatrixMultMacOpShape (transpose_a transpose_b : Bool)
    (in_attrs out_attrs : List TShape) : Except LaError (Bool × List TShape × List TShape) :=
  -- CHECK_GE(in_attrs->size(), 2); CHECK_EQ(out_attrs->size(), 1);
  if in_attrs.length < 2 then .error .arityContractViolation
  else if out_attrs.length ≠ 1 then .error .arityContractViolation
  else
    let s0 := in_attrs.getD 0 []
    let s1 := in_attrs.getD 1 []
    let ndim := s0.length
    if 2 ≤ ndim ∧ ndim = s1.length then
      -- Forward shape inference.
      -- Both inputs must have same shape except for last two dimensions;
      -- any mismatch there makes the function return false (decline).
      if s0.take (ndim - 2) ≠ s1.take (ndim - 2) then .ok (false, in_attrs, out_attrs)
      else
        -- CHECK_EQ of the contraction dimensions: fatal on mismatch.
        let ca := if transpose_a then s0.getD (ndim - 2) 0 else s0.getD (ndim - 1) 0
        let cb := if transpose_b then s1.getD (ndim - 1) 0 else s1.getD (ndim - 2) 0
        if ca ≠ cb then .error .shapeMismatch
        else
          let r := if transpose_a then s0.getD (ndim - 1) 0 else s0.getD (ndim - 2) 0
          let c := if transpose_b then s1.getD (ndim - 2) 0 else s1.getD (ndim - 1) 0
          let tshape := s0.take (ndim - 2) ++ [r, c]
          match shape_assign (out_attrs.getD 0 []) tshape with
          | none => .error .shapeMismatch
          | some o =>
            if 2 < in_attrs.length then
              -- Infer/check shape of third operand of a mac.
              match shape_assign (in_attrs.getD 2 []) tshape with
              | none => .error .shapeMismatch
              | some i2 => .ok (true, in_attrs.set 2 i2, out_attrs.set 0 o)
            else .ok (true, in_attrs, out_attrs.set 0 o)
    -- Can't do backward inference of shapes for this operator.
    else .ok (false, in_attrs, out_attrs)

/-- Shape inference for triangular matrix multiply
(`LaTriangMatrixMultOpShape`): forward inference when both input ranks are
known and equal (first operand must be square in its trailing two
dimensions), otherwise backward inference from a known output shape. -/
def LaTriangMatrixMultOpShape (param : LaTriangMatrixMultParam)
    (in_attrs out_attrs : List TShape) : Except LaError (Bool × List TShape × List TShape) :=
  -- CHECK_EQ(in_attrs->size(), 2); CHECK_EQ(out_attrs->size(), 1);
  if in_attrs.length ≠ 2 then .error .arityContractViolation
  else if out_attrs.length ≠ 1 then .error .arityContractViolation
  else
    let s0 := in_attrs.getD 0 []
    let s1 := in_attrs.getD 1 []
    let ndim := s0.length
    if 2 ≤ ndim ∧ ndim = s1.length then
      -- Forward shape inference.
      -- First operand must be a tensor of square matrices (fatal otherwise).
      if s0.getD (ndim - 2) 0 ≠ s0.getD (ndim - 1) 0 then .error .shapeMismatch
      -- Must have same shape except for last two dimensions (else decline).
      else if s0.take (ndim - 2) ≠ s1.take (ndim - 2) then .ok (false, in_attrs, out_attrs)
      else if param.rightside then
        -- We compute B * A where A is the first and B the second input.
        if s0.getD (ndim - 2) 0 ≠ s1.getD (ndim - 1) 0 then .error .shapeMismatch
        else
          let tshape := s0.take (ndim - 2) ++
            [s1.getD (ndim - 2) 0,
             if param.transpose then s0.getD (ndim - 2) 0 else s0.getD (ndim - 1) 0]
          match shape_assign (out_attrs.getD 0 []) tshape with
          | none => .error .shapeMismatch
          | some o => .ok (true, in_attrs, out_attrs.set 0 o)
      else
        -- We compute A * B where A is the first and B the second input.
        if s1.getD (ndim - 2) 0 ≠ s0.getD (ndim - 1) 0 then .error .shapeMismatch
        else
          let tshape := s0.take (ndim - 2) ++
            [if param.transpose then s0.getD (ndim - 1) 0 else s0.getD (ndim - 2) 0,
             s1.getD (ndim - 1) 0]
          match shape_assign (out_attrs.getD 0 []) tshape with
          | none => .error .shapeMismatch
          | some o => .ok (true, in_attrs, out_attrs.set 0 o)
    else
      let o := out_attrs.getD 0 []
      let odim := o.length
      if 2 ≤ odim then
        -- Backward shape inference.
        let batch := o.take (odim - 2)
        let ishape1 := if param.rightside
          then batch ++ [o.getD (odim - 1) 0, o.getD (odim - 1) 0]
          else batch ++ [o.getD (odim - 2) 0, o.getD (odim - 2) 0]
        let ishape2 := batch ++ [o.getD (odim - 2) 0, o.getD (odim - 1) 0]
        match shape_assign (in_attrs.getD 0 []) ishape1 with
        | none => .error .shapeMismatch
        | some i0 =>
          match shape_assign (in_attrs.getD 1 []) ishape2 with
          | none => .error .shapeMismatch
          | some i1 => .ok (true, (in_attrs.set 0 i0).set 1 i1, out_attrs)
      else .ok (false, in_attrs, out_attrs)

/-- Shape inference for reduction of the `dim` lowest dimensions to a
scalar (`LaReduceShape<dim>`). The output vector in the source is
zero-initialized with size `max(1, ndim - dim)`, gets `oshape[0] = 1`,
and is then overwritten at the leading `ndim - dim` positions by the copy
loop; position `i` therefore holds the input's dimension `i` when
`i < ndim - dim` and otherwise its initialization value (1 at position 0,
0 elsewhere). -/
def LaReduceShape (dim : Nat) (in_attrs out_attrs : List TShape) :
    Except LaError (Bool × List TShape × List TShape) :=
  -- CHECK_EQ(in_attrs->size(), 1); CHECK_EQ(out_attrs->size(), 1);
  if in_attrs.length ≠ 1 then .error .arityContractViolation
  else if out_attrs.length ≠ 1 then .error .arityContractViolation
  else
    let s := in_attrs.getD 0 []
    let ndim := s.length
    if ndim < dim then .ok (false, in_attrs, out_attrs)
    else
      let oshape := (List.range (max 1 (ndim - dim))).map (fun i =>
        if i < ndim - dim then s.getD i 0 else if i = 0 then 1 else 0)
      match shape_assign (out_attrs.getD 0 []) oshape with
      | none => .error .shapeMismatch
      | some o => .ok (true, in_attrs, out_attrs.set 0 o)

/-- A numerical policy (the `laop` template argument): given the contents
of its input buffers, the contents it writes into each output buffer. -/
abbrev Kernel (α : Type) := List (List α) → List (List α)

/-- The arity adapter (`LaOpCaller<..., inum, onum, laop>`): template
specializations exist exactly for the six (input-count, output-count)
pairs below; each reshapes the buffers and calls the policy with that
positional argument list. The unspecialized primary template is
`CHECK(false)` — a fatal contract violation. The result is the list of
contents the policy wrote into the output buffers. -/
def LaOpCaller (k : Kernel α) (inum onum : Nat)
    (inputs _outputs : List (TBlob α)) : Except LaError (List (List α)) :=
  let d := fun i => (inputs.map TBlob.data).getD i []
  match inum, onum with
  | 1, 1 => .ok (k [d 0])
  | 2, 1 => .ok (k [d 0, d 1])
  | 3, 1 => .ok (k [d 0, d 1, d 2])
  | 3, 2 => .ok (k [d 0, d 1, d 2])
  | 4, 2 => .ok (k [d 0, d 1, d 2, d 3])
  | 4, 3 => .ok (k [d 0, d 1, d 2, d 3])
  | _, _ => .error .arityContractViolation

/-- The element-type tag the drivers dispatch on: the first output
buffer's tag (`outputs[0].type_flag_`). -/
def firstFlag : List (TBlob α) → Option TypeFlag
  | [] => none
  | b :: _ => some b.type_flag_

/-- `MSHADOW_SGL_DBL_TYPE_SWITCH` admits exactly single- and
double-precision float tags. -/
def sglDblOk (f : TypeFlag) : Bool :=
  f = TypeFlag.kFloat32 || f = TypeFlag.kFloat64

/-- Forward execution driver (`LaOpForward`): validates the arity,
selects the element type from `outputs[0].type_flag_` (fatal unless
single/double float), and invokes the adapter on the real output buffers.
The result is the final contents of the output buffers. Reading
`outputs[0]` of an empty output list is outside the source's contract; it
is modelled as the unsupported-type failure of the type switch. -/
def LaOpForward (k : Kernel α) (inum onum : Nat) (inputs : List (TBlob α))
    (_req : List OpReq) (outputs : List (TBlob α)) : Except LaError (List (List α)) :=
  if inputs.length ≠ inum then .error .arityContractViolation
  else if outputs.length ≠ onum then .error .arityContractViolation
  else match outputs with
  | [] => .error .unsupportedElementType
  | b :: _ =>
    if sglDblOk b.type_flag_ then LaOpCaller k inum onum inputs outputs
    else .error .unsupportedElementType

/-- Backward execution driver (`LaOpBackward`): same validation and type
selection as forward, but every output whose write-mode is `kAddTo` is
substituted by a temporary buffer (sized to that output's element count)
for the kernel call, and afterwards the temporary is added elementwise
into the real output (`out += tspace[i]`). Outputs with any other mode
receive the kernel's write directly. The result is the final contents of
the output buffers. -/
def LaOpBackward [Add α] (k : Kernel α) (inum onum : Nat) (inputs : List (TBlob α))
    (req : List OpReq) (outputs : List (TBlob α)) : Except LaError (List (List α)) :=
  if inputs.length ≠ inum then .error .arityContractViolation
  else if outputs.length ≠ onum then .error .arityContractViolation
  else match outputs with
  | [] => .error .unsupportedElementType
  | b :: _ =>
    if sglDblOk b.type_flag_ then
      match LaOpCaller k inum onum inputs outputs with
      | .error e => .error e
      | .ok written =>
        .ok ((List.range onum).map fun i =>
          if req.getD i OpReq.kNullOp = OpReq.kAddTo then
            List.zipWith (· + ·) ((outputs.map TBlob.data).getD i []) (written.getD i [])
          else written.getD i [])
    else .error .unsupportedElementType

/-! ### Helper lemmas about list indexing -/

theorem take_length_append {α : Type} (t r : List α) : (t ++ r).take t.length = t := by
  induction t with
  | nil => simp
  | cons a t ih => simp [ih]

theorem getD_length_append {α : Type} (t : List α) (x : α) (r : List α) (d : α) :
    (t ++ x :: r).getD t.length d = x := by
  induction t with
  | nil => rfl
  | cons a t ih => simpa using ih

theorem getD_length_succ_append {α : Type} (t : List α) (x y : α) (r : List α) (d : α) :
    (t ++ x :: y :: r).getD (t.length + 1) d = y := by
  induction t with
  | nil => rfl
  | cons a t ih => simpa using ih

theorem add_two_sub_one (n : Nat) : n + 2 - 1 = n + 1 := rfl

theorem getElem_length_append {α : Type} (t : List α) (x : α) (r : List α)
    (h : t.length < (t ++ x :: r).length) : (t ++ x :: r)[t.length] = x := by
  induction t with
  | nil => rfl
  | cons a t ih =>
      simpa using ih (by simp only [List.length_append, List.length_cons] at h ⊢; omega)

theorem getElem_length_succ_append {α : Type} (t : List α) (x y : α) (r : List α)
    (h : t.length + 1 < (t ++ x :: y :: r).length) : (t ++ x :: y :: r)[t.length + 1] = y := by
  induction t with
  | nil => rfl
  | cons a t ih =>
      simpa using ih (by simp only [List.length_append, List.length_cons] at h ⊢; omega)

theorem exists_concat_two {α : Type} (l : List α) (h : 2 ≤ l.length) :
    ∃ t x y, l = t ++ [x, y] := by
  rcases List.eq_nil_or_concat l with h0 | ⟨t1, y, rfl⟩
  · subst h0; simp at h
  · rcases List.eq_nil_or_concat t1 with h1 | ⟨t2, x, rfl⟩
    · subst h1; simp at h
    · exact ⟨t2, x, y, by simp⟩

theorem getD_take_eq {α : Type} (l : List α) (n i : Nat) (d : α) (h : i < n) :
    (l.take n).getD i d = l.getD i d := by
  induction l generalizing n i with
  | nil => simp
  | cons a l ih =>
    cases n with
    | zero => omega
    | succ n =>
      cases i with
      | zero => simp
      | succ i => simpa using ih n i (by omega)

theorem map_range_getD_eq_take {α : Type} (s : List α) (n : Nat) (d : α)
    (h : n ≤ s.length) :
    (List.range n).map (fun i => s.getD i d) = s.take n := by
  induction n with
  | zero => simp
  | succ n ih =>
    rw [List.range_succ, List.map_append, ih (by omega), List.take_succ]
    have hn : n < s.length := by omega
    simp [List.getD_eq_getElem?_getD, List.getElem?_eq_getElem hn]

theorem dims_assign_eq_none (l : List (Nat × Nat)) (p : Nat × Nat)
    (hp : p ∈ l) (h1 : p.1 ≠ 0) (h2 : p.2 ≠ 0) (hne : p.1 ≠ p.2) :
    dims_assign l = none := by
  induction l with
  | nil => cases hp
  | cons q l ih =>
    rcases List.mem_cons.mp hp with rfl | hq
    · simp [dims_assign, h1, h2, hne]
    · unfold dims_assign
      rcases q with ⟨a, b⟩
      by_cases ha : a = 0 <;> by_cases hab : a = b ∨ b = 0 <;>
        simp [ha, hab, ih hq]

theorem shape_assign_nil (t : TShape) : shape_assign [] t = some t := by
  simp [shape_assign]

theorem zip_exists_ne {l1 l2 : List Nat} (hlen : l1.length = l2.length)
    (hne : l1 ≠ l2) : ∃ p ∈ l1.zip l2, p.1 ≠ p.2 := by
  induction l1 generalizing l2 with
  | nil => cases l2 <;> simp_all
  | cons a l ih =>
    cases l2 with
    | nil => simp at hlen
    | cons b l2 =>
      by_cases hab : a = b
      · subst hab
        have hll : l ≠ l2 := fun hh => hne (by rw [hh])
        obtain ⟨p, hp, hpne⟩ := ih (by simpa using hlen) hll
        exact ⟨p, by simp [hp], hpne⟩
      · exact ⟨(a, b), by simp, hab⟩

/-- A checked assignment between two fully-known, distinct shapes is the
hard `ShapeMismatch` error. -/
theorem shape_assign_known_ne (s t : TShape) (hs : s ≠ []) (ht : t ≠ [])
    (h0s : 0 ∉ s) (h0t : 0 ∉ t) (hne : s ≠ t) : shape_assign s t = none := by
  unfold shape_assign
  have hsl : s.length ≠ 0 := fun h => hs (List.eq_nil_of_length_eq_zero h)
  by_cases hl : s.length = t.length
  · rw [if_neg hsl, if_neg (by simp [hl])]
    obtain ⟨p, hp, hpne⟩ := zip_exists_ne hl hne
    have h1 : p.1 ≠ 0 := fun h => h0s (h ▸ (List.of_mem_zip hp).1)
    have h2 : p.2 ≠ 0 := fun h => h0t (h ▸ (List.of_mem_zip hp).2)
    exact dims_assign_eq_none _ p hp h1 h2 hpne
  · have htl : t.length ≠ 0 := fun h => ht (List.eq_nil_of_length_eq_zero h)
    rw [if_neg hsl, if_pos hl, if_neg htl]

/-! ### Claim theorems -/

/-- C1: for every pair of input shapes of equal rank `r ≥ 2` with identical
leading batch dimensions `B`, forward matrix-multiply inference with
`transpose_a = transpose_b = false` on inputs `B × m × k` and `B × k × n`
succeeds and assigns output shape `B × m × n`; with `transpose_a = true`
(and `transpose_b = false`), rank-2 inputs `k × m` and `k × n` yield output
`m × n`. -/
theorem laMatrixMultMacOpShape_forward_product (B : List Nat) (m k n k2 m2 n2 : Nat) :
    LaMatrixMultMacOpShape false false [B ++ [m, k], B ++ [k, n]] [[]] =
      .ok (true, [B ++ [m, k], B ++ [k, n]], [B ++ [m, n]]) ∧
    LaMatrixMultMacOpShape true false [[k2, m2], [k2, n2]] [[]] =
      .ok (true, [[k2, m2], [k2, n2]], [[m2, n2]]) := by
  constructor
  · simp [LaMatrixMultMacOpShape, shape_assign, take_length_append,
          getD_length_append, getD_length_succ_append, add_two_sub_one,
          getElem_length_append, getElem_length_succ_append, Nat.add_sub_cancel]
  · simp [LaMatrixMultMacOpShape, shape_assign, List.getD]

/-- C7: for every compile-time reduction depth `d`, reduction-to-scalar
inference declines (returns false, assigning nothing) when the input rank
is below `d`; otherwise it succeeds and the assigned output shape consists
of the input's leading `rank - d` dimensions, except that when the rank
equals `d` exactly the output shape is `[1]` (rank 1, extent 1), never an
empty shape. -/
theorem laReduceShape_correct (d : Nat) (s : TShape) :
    LaReduceShape d [s] [[]] =
      if s.length < d then .ok (false, [s], [[]])
      else .ok (true, [s], [if s.length = d then [1] else s.take (s.length - d)]) := by
  by_cases hlt : s.length < d
  · simp [LaReduceShape, hlt]
  · have hosh : (List.range (max 1 (s.length - d))).map (fun i =>
        if i < s.length - d then s.getD i 0 else if i = 0 then 1 else 0) =
        if s.length = d then [1] else s.take (s.length - d) := by
      by_cases heq : s.length = d
      · simp only [heq, Nat.sub_self, if_pos rfl]
        rfl
      · rw [if_neg heq, Nat.max_eq_right (by omega)]
        rw [List.map_congr_left (g := fun i => s.getD i 0)
             (fun i hi => if_pos (List.mem_range.mp hi))]
        exact map_range_getD_eq_take s (s.length - d) 0 (by omega)
    simp [LaReduceShape, hlt, shape_assign_nil]
    simpa using hosh

/-- C4 counterexample: with already-known, unequal leading batch extents
(5 versus 4) the inference call returns false (declines, leaving all
shapes unchanged) instead of failing fatally with `ShapeMismatch` as the
claim asserts. -/
theorem laMatrixMultMacOpShape_batch_mismatch_cex :
    LaMatrixMultMacOpShape false false [[5, 2, 3], [4, 3, 6]] [[]] =
      .ok (false, [[5, 2, 3], [4, 3, 6]], [[]]) := by
  rfl

/-- C4 amended: for every matrix multiply / multiply-accumulate inference
call where both operands have equal rank ≥ 2 and, at some leading (batch)
dimension index, the extents of both operands are already known (nonzero) and
unequal, the inference function declines — it returns false and leaves
every shape unchanged — rather than failing fatally. -/
theorem laMatrixMultMacOpShape_batch_mismatch_declines (ta tb : Bool)
    (s0 s1 : TShape) (os : List TShape) (i : Nat)
    (hos : os.length = 1) (h2 : 2 ≤ s0.length) (hlen : s0.length = s1.length)
    (hi : i < s0.length - 2)
    (hk0 : s0.getD i 0 ≠ 0) (hk1 : s1.getD i 0 ≠ 0)
    (hne : s0.getD i 0 ≠ s1.getD i 0) :
    LaMatrixMultMacOpShape ta tb [s0, s1] os = .ok (false, [s0, s1], os) := by
  have htake : s0.take (s0.length - 2) ≠ s1.take (s0.length - 2) := by
    intro hcontra
    have := congrArg (fun l => l.getD i 0) hcontra
    simp only at this
    rw [getD_take_eq s0 _ _ _ hi, getD_take_eq s1 _ _ _ hi] at this
    exact hne this
  simp only [LaMatrixMultMacOpShape]
  split_ifs with c1 c2 c3 c4 <;> simp_all

/-- C4 amended, witness at a concrete input. -/
theorem laMatrixMultMacOpShape_batch_mismatch_declines_witness :
    LaMatrixMultMacOpShape false false [[5, 2, 3], [4, 3, 6]] [[9]] =
      .ok (false, [[5, 2, 3], [4, 3, 6]], [[9]]) :=
  laMatrixMultMacOpShape_batch_mismatch_declines false false [5, 2, 3] [4, 3, 6]
    [[9]] 0 (by decide) (by decide) (by decide) (by decide) (by decide) (by decide)
    (by decide)

/-- C5 counterexample: with `transpose_a = transpose_b = false` and input
shapes `2 × 3` and `3 × 4`, the second-to-last extent of the left operand
(2) differs from the second-to-last extent of the right operand (3) — the
extents the claim designates as the contraction dimensions — yet inference
succeeds with output `2 × 4` instead of raising `ShapeMismatch`: the code
contracts the *last* extent of the non-transposed left operand against the
*second-to-last* extent of the non-transposed right operand. -/
theorem laMatrixMultMacOpShape_inner_dim_cex :
    LaMatrixMultMacOpShape false false [[2, 3], [3, 4]] [[]] =
      .ok (true, [[2, 3], [3, 4]], [[2, 4]]) := by
  rfl

/-- C5 amended: for every matrix multiply / multiply-accumulate forward
inference call whose batch dimensions all match, if the contraction
dimension of the left operand (its *last* extent when `transpose_a` is
false, its second-to-last when true) differs from the contraction
dimension of the right operand (its *second-to-last* extent when
`transpose_b` is false, its last when true), the function fails with a
hard `ShapeMismatch` error; it never merely declines in this case. -/
theorem laMatrixMultMacOpShape_inner_dim_mismatch_fatal (ta tb : Bool)
    (s0 s1 : TShape) (os : List TShape)
    (hos : os.length = 1) (h2 : 2 ≤ s0.length) (hlen : s0.length = s1.length)
    (hbatch : s0.take (s0.length - 2) = s1.take (s0.length - 2))
    (hne : (if ta then s0.getD (s0.length - 2) 0 else s0.getD (s0.length - 1) 0) ≠
           (if tb then s1.getD (s0.length - 1) 0 else s1.getD (s0.length - 2) 0)) :
    LaMatrixMultMacOpShape ta tb [s0, s1] os = .error .shapeMismatch := by
  simp only [LaMatrixMultMacOpShape]
  split_ifs with c1 c2 c3 c4 c5 <;> simp_all

/-- C5 amended, witness at a concrete input. -/
theorem laMatrixMultMacOpShape_inner_dim_mismatch_fatal_witness :
    LaMatrixMultMacOpShape false false [[2, 3], [4, 5]] [[]] =
      .error .shapeMismatch :=
  laMatrixMultMacOpShape_inner_dim_mismatch_fatal false false [2, 3] [4, 5] [[]]
    (by decide) (by decide) (by decide) (by decide) (by decide)

/-- Evaluation of a multiply-accumulate inference call that passes all the
two-operand forward checks: the result is decided by the checked
assignment of the product shape to the third operand. -/
theorem mac_forward_eval (ta tb : Bool) (s0 s1 s2 : TShape)
    (h2 : 2 ≤ s0.length) (hlen : s0.length = s1.length)
    (hbatch : s0.take (s0.length - 2) = s1.take (s0.length - 2))
    (hinner : (if ta then s0.getD (s0.length - 2) 0 else s0.getD (s0.length - 1) 0) =
              (if tb then s1.getD (s0.length - 1) 0 else s1.getD (s0.length - 2) 0)) :
    LaMatrixMultMacOpShape ta tb [s0, s1, s2] [[]] =
      match shape_assign s2 (s0.take (s0.length - 2) ++
        [if ta then s0.getD (s0.length - 1) 0 else s0.getD (s0.length - 2) 0,
         if tb then s1.getD (s0.length - 2) 0 else s1.getD (s0.length - 1) 0]) with
      | none => .error .shapeMismatch
      | some i2 => .ok (true, [s0, s1, i2],
          [s0.take (s0.length - 2) ++
            [if ta then s0.getD (s0.length - 1) 0 else s0.getD (s0.length - 2) 0,
             if tb then s1.getD (s0.length - 2) 0 else s1.getD (s0.length - 1) 0]]) := by
  simp only [LaMatrixMultMacOpShape]
  split_ifs with c1 c2 c3 c4 c5 <;>
    simp_all [shape_assign_nil]

/-- C6: in every multiply-accumulate inference call (three input shapes)
whose forward inference computes an output product shape, if the third
operand's shape is already (fully) known and differs from that product
shape the function raises `ShapeMismatch`, and if the third operand's
shape is unknown it is assigned the product shape (which is also assigned
to the output). -/
theorem laMatrixMultMacOpShape_mac_third_operand (ta tb : Bool)
    (s0 s1 s2 tsh : TShape)
    (h2 : 2 ≤ s0.length) (hlen : s0.length = s1.length)
    (hbatch : s0.take (s0.length - 2) = s1.take (s0.length - 2))
    (hinner : (if ta then s0.getD (s0.length - 2) 0 else s0.getD (s0.length - 1) 0) =
              (if tb then s1.getD (s0.length - 1) 0 else s1.getD (s0.length - 2) 0))
    (htsh : tsh = s0.take (s0.length - 2) ++
        [if ta then s0.getD (s0.length - 1) 0 else s0.getD (s0.length - 2) 0,
         if tb then s1.getD (s0.length - 2) 0 else s1.getD (s0.length - 1) 0]) :
    (s2 ≠ [] → 0 ∉ s2 → 0 ∉ tsh → s2 ≠ tsh →
      LaMatrixMultMacOpShape ta tb [s0, s1, s2] [[]] = .error .shapeMismatch) ∧
    (s2 = [] →
      LaMatrixMultMacOpShape ta tb [s0, s1, s2] [[]] =
        .ok (true, [s0, s1, tsh], [tsh])) := by
  constructor
  · intro hs2 h0s2 h0t hne
    rw [mac_forward_eval ta tb s0 s1 s2 h2 hlen hbatch hinner, ← htsh,
        shape_assign_known_ne s2 tsh hs2 (by rw [htsh]; simp) h0s2 h0t hne]
  · intro hs2
    subst hs2
    rw [mac_forward_eval ta tb s0 s1 [] h2 hlen hbatch hinner, ← htsh]
    simp [shape_assign]

/-- Evaluation of a triangular-multiply forward inference call on two
shapes of equal rank ≥ 2, decomposed as batch ++ trailing matrix pair. -/
theorem triang_forward_eval (p : LaTriangMatrixMultParam) (t u : List Nat)
    (x y v w : Nat) (hul : u.length = t.length) :
    LaTriangMatrixMultOpShape p [t ++ [x, y], u ++ [v, w]] [[]] =
      if x ≠ y then .error .shapeMismatch
      else if t ≠ u then .ok (false, [t ++ [x, y], u ++ [v, w]], [[]])
      else if p.rightside then
        if x ≠ w then .error .shapeMismatch
        else .ok (true, [t ++ [x, y], u ++ [v, w]],
              [t ++ [v, if p.transpose then x else y]])
      else
        if v ≠ y then .error .shapeMismatch
        else .ok (true, [t ++ [x, y], u ++ [v, w]],
              [t ++ [if p.transpose then y else x, w]]) := by
  have hnd : ((t ++ [x, y] : List Nat)).length = t.length + 2 := by simp
  have hnd2 : ((u ++ [v, w] : List Nat)).length = t.length + 2 := by simp [hul]
  have ex1 : (t ++ [x, y] : List Nat).getD t.length 0 = x := getD_length_append t x [y] 0
  have ex2 : (t ++ [x, y] : List Nat).getD (t.length + 1) 0 = y :=
    getD_length_succ_append t x y [] 0
  have eu1 : (u ++ [v, w] : List Nat).getD t.length 0 = v := by
    rw [← hul]; exact getD_length_append u v [w] 0
  have eu2 : (u ++ [v, w] : List Nat).getD (t.length + 1) 0 = w := by
    rw [← hul]; exact getD_length_succ_append u v w [] 0
  have et : (t ++ [x, y] : List Nat).take t.length = t := take_length_append t [x, y]
  have eu : (u ++ [v, w] : List Nat).take t.length = u := by
    rw [← hul]; exact take_length_append u [v, w]
  simp only [LaTriangMatrixMultOpShape, List.getD_cons_zero, List.getD_cons_succ,
             List.length_cons, List.length_nil, hnd, hnd2, Nat.add_sub_cancel,
             add_two_sub_one, ex1, ex2, eu1, eu2, et, eu, shape_assign_nil]
  norm_num

/-- Evaluation of a triangular-multiply backward inference call from a
known output shape of rank ≥ 2 with both inputs unknown. -/
theorem triang_backward_eval (p : LaTriangMatrixMultParam) (t : List Nat) (a b : Nat) :
    LaTriangMatrixMultOpShape p [[], []] [t ++ [a, b]] =
      if p.rightside then .ok (true, [t ++ [b, b], t ++ [a, b]], [t ++ [a, b]])
      else .ok (true, [t ++ [a, a], t ++ [a, b]], [t ++ [a, b]]) := by
  have hnd : ((t ++ [a, b] : List Nat)).length = t.length + 2 := by simp
  have ea1 : (t ++ [a, b] : List Nat).getD t.length 0 = a := getD_length_append t a [b] 0
  have ea2 : (t ++ [a, b] : List Nat).getD (t.length + 1) 0 = b :=
    getD_length_succ_append t a b [] 0
  have et : (t ++ [a, b] : List Nat).take t.length = t := take_length_append t [a, b]
  simp only [LaTriangMatrixMultOpShape, List.getD_cons_zero, List.getD_cons_succ,
             List.length_cons, List.length_nil, hnd, Nat.add_sub_cancel,
             add_two_sub_one, ea1, ea2, et, shape_assign_nil]
  norm_num
  by_cases hr : p.rightside <;> simp [hr]

/-- C3: for every pair of input shapes on which forward triangular-multiply
inference succeeds (for any `rightside` and `transpose` flags), running
backward triangular-multiply inference — both inputs unknown — on the
output shape that forward inference produced reconstructs exactly the
original pair of input shapes. -/
theorem laTriangMatrixMultOpShape_roundtrip (p : LaTriangMatrixMultParam)
    (s0 s1 o : TShape)
    (h : LaTriangMatrixMultOpShape p [s0, s1] [[]] = .ok (true, [s0, s1], [o])) :
    LaTriangMatrixMultOpShape p [[], []] [o] = .ok (true, [s0, s1], [o]) := by
  by_cases hc : 2 ≤ s0.length ∧ s0.length = s1.length
  · obtain ⟨h2, hlen⟩ := hc
    obtain ⟨t, x, y, rfl⟩ := exists_concat_two s0 h2
    obtain ⟨u, v, w, rfl⟩ := exists_concat_two s1 (by omega)
    have hul : u.length = t.length := by
      simp only [List.length_append, List.length_cons, List.length_nil] at hlen
      omega
    rw [triang_forward_eval p t u x y v w hul] at h
    by_cases hxy : x = y
    swap
    · rw [if_pos hxy] at h; exact absurd h (by simp)
    rw [if_neg (not_not_intro hxy)] at h
    by_cases htu : t = u
    swap
    · rw [if_pos htu] at h; exact absurd h (by simp)
    rw [if_neg (not_not_intro htu)] at h
    subst hxy
    subst htu
    by_cases hr : p.rightside
    · rw [if_pos hr] at h
      by_cases hxw : x = w
      swap
      · rw [if_pos hxw] at h; exact absurd h (by simp)
      rw [if_neg (not_not_intro hxw)] at h
      subst hxw
      have ho : t ++ [v, x] = o := by simpa using h
      subst ho
      rw [triang_backward_eval p t v x, if_pos hr]
    · rw [if_neg hr] at h
      by_cases hvy : v = x
      swap
      · rw [if_pos hvy] at h; exact absurd h (by simp)
      rw [if_neg (not_not_intro hvy)] at h
      subst hvy
      have ho : t ++ [v, w] = o := by simpa using h
      subst ho
      rw [triang_backward_eval p t v w, if_neg hr]
  · exfalso
    simp only [LaTriangMatrixMultOpShape] at h
    simp [hc] at h

/-- C3, witness at a concrete input. -/
theorem laTriangMatrixMultOpShape_roundtrip_witness :
    LaTriangMatrixMultOpShape ⟨false, false, 1⟩ [[], []] [[2, 3]] =
      .ok (true, [[2, 2], [2, 3]], [[2, 3]]) :=
  laTriangMatrixMultOpShape_roundtrip ⟨false, false, 1⟩ [2, 2] [2, 3] [2, 3] (by rfl)

/-- C6, witness at a concrete input: a mismatching known third operand. -/
theorem laMatrixMultMacOpShape_mac_third_operand_witness :
    LaMatrixMultMacOpShape false false [[2, 3], [3, 4], [9, 9]] [[]] =
      .error .shapeMismatch :=
  (laMatrixMultMacOpShape_mac_third_operand false false [2, 3] [3, 4] [9, 9] [2, 4]
    (by decide) (by decide) (by decide) (by decide) (by decide)).1
    (by decide) (by decide) (by decide) (by decide)

theorem getD_map_range {β : Type} (f : Nat → β) (n i : Nat) (d : β) (h : i < n) :
    ((List.range n).map f).getD i d = f i := by
  rw [List.getD_eq_getElem?_getD, List.getElem?_map, List.getElem?_range h]
  rfl

/-- The arity adapter never signals the unsupported-element-type failure:
its only fatal outcome is the arity contract violation. -/
theorem laOpCaller_ne_unsupported {α : Type} (k : Kernel α) (inum onum : Nat)
    (inputs outputs : List (TBlob α)) :
    LaOpCaller k inum onum inputs outputs ≠ .error .unsupportedElementType := by
  rcases inum with _ | _ | _ | _ | _ | n <;> rcases onum with _ | _ | _ | _ | m <;>
    simp [LaOpCaller]

/-- The arity adapter reads only the contents of the input buffers (besides
the arity pair): its result is unchanged under any change of buffer type
tags or of output-buffer contents. -/
theorem laOpCaller_congr {α : Type} (k : Kernel α) (inum onum : Nat)
    (i1 i2 o1 o2 : List (TBlob α)) (h : i1.map TBlob.data = i2.map TBlob.data) :
    LaOpCaller k inum onum i1 o1 = LaOpCaller k inum onum i2 o2 := by
  rcases inum with _ | _ | _ | _ | _ | n <;> rcases onum with _ | _ | _ | _ | m <;>
    simp [LaOpCaller, h]

/-- C8: for every (input-count, output-count) pair outside the set
{(1,1), (2,1), (3,1), (3,2), (4,2), (4,3)}, invoking the arity adapter
fails fatally with the arity-contract-violation error — the unspecialized
dispatch entry unconditionally aborts, and no such pair reaches any
kernel. -/
theorem laOpCaller_unsupported_arity {α : Type} (k : Kernel α) (inum onum : Nat)
    (inputs outputs : List (TBlob α))
    (h : (inum, onum) ∉
      ([(1, 1), (2, 1), (3, 1), (3, 2), (4, 2), (4, 3)] : List (Nat × Nat))) :
    LaOpCaller k inum onum inputs outputs = .error .arityContractViolation := by
  rcases inum with _ | _ | _ | _ | _ | n <;> rcases onum with _ | _ | _ | _ | m <;>
    simp_all [LaOpCaller]

/-- C8, witness at a concrete unsupported arity pair. -/
theorem laOpCaller_unsupported_arity_witness :
    LaOpCaller (fun l => l) 5 5 ([] : List (TBlob Int)) [] =
      .error .arityContractViolation :=
  laOpCaller_unsupported_arity (fun l => l) 5 5 [] [] (by decide)

/-- Evaluation of the backward driver once the arity and element-type
checks pass and the adapter call is known: every `kAddTo` output gets its
prior contents plus the kernel's write, every other output gets the
kernel's write. -/
theorem laOpBackward_eval {α : Type} [Add α] (k : Kernel α) (inum onum : Nat)
    (inputs : List (TBlob α)) (req : List OpReq) (b : TBlob α)
    (rest : List (TBlob α)) (written : List (List α))
    (h1 : inputs.length = inum) (h2 : (b :: rest).length = onum)
    (hok : sglDblOk b.type_flag_ = true)
    (hcall : LaOpCaller k inum onum inputs (b :: rest) = .ok written) :
    LaOpBackward k inum onum inputs req (b :: rest) =
      .ok ((List.range onum).map fun j =>
        if req.getD j OpReq.kNullOp = OpReq.kAddTo then
          List.zipWith (· + ·) (((b :: rest).map TBlob.data).getD j []) (written.getD j [])
        else written.getD j []) := by
  simp [LaOpBackward, h1, h2, hok, hcall]

/-- C2: in every backward-driver invocation whose output `i` has
write-mode `kAddTo`, if the output buffer held contents `X` before the
call and the kernel, run in isolation, would write `Y` into that output,
then after the call the output holds exactly the elementwise sum `X + Y`;
this holds whenever the selected element type is single- or
double-precision float (the driver routes the kernel's write for that
output through a temporary and adds it into the real output). -/
theorem laOpBackward_addTo_accumulates {α : Type} [Add α] (k : Kernel α)
    (inum onum : Nat) (inputs : List (TBlob α)) (req : List OpReq)
    (outputs : List (TBlob α)) (written : List (List α)) (i : Nat)
    (h1 : inputs.length = inum) (h2 : outputs.length = onum) (hi : i < onum)
    (hflag : firstFlag outputs = some TypeFlag.kFloat32 ∨
             firstFlag outputs = some TypeFlag.kFloat64)
    (hcall : LaOpCaller k inum onum inputs outputs = .ok written)
    (hreq : req.getD i OpReq.kNullOp = OpReq.kAddTo) :
    ∃ r, LaOpBackward k inum onum inputs req outputs = .ok r ∧
      r.getD i [] =
        List.zipWith (· + ·) ((outputs.map TBlob.data).getD i [])
          (written.getD i []) := by
  cases outputs with
  | nil => simp [firstFlag] at hflag
  | cons b rest =>
    have hok : sglDblOk b.type_flag_ = true := by
      rcases hflag with hf | hf <;>
        (simp only [firstFlag, Option.some.injEq] at hf; simp [sglDblOk, hf])
    refine ⟨_, laOpBackward_eval k inum onum inputs req b rest written h1 h2 hok hcall, ?_⟩
    rw [getD_map_range _ _ _ _ hi, if_pos hreq]

/-- C2, witness at a concrete input (prior contents [10, 20], kernel
write [3, 4], final contents [13, 24]). -/
theorem laOpBackward_addTo_accumulates_witness :
    ∃ r, LaOpBackward (fun _ => [[3, 4]]) 2 1
        [⟨TypeFlag.kFloat32, [1]⟩, ⟨TypeFlag.kFloat32, [2]⟩] [OpReq.kAddTo]
        [⟨TypeFlag.kFloat32, ([10, 20] : List Int)⟩] = .ok r ∧
      r.getD 0 [] = List.zipWith (· + ·) [10, 20] [3, 4] :=
  laOpBackward_addTo_accumulates (fun _ => [[3, 4]]) 2 1
    [⟨TypeFlag.kFloat32, [1]⟩, ⟨TypeFlag.kFloat32, [2]⟩] [OpReq.kAddTo]
    [⟨TypeFlag.kFloat32, [10, 20]⟩] [[3, 4]] 0
    rfl rfl (by decide) (Or.inl rfl) rfl rfl

/-- C9: in every backward-driver invocation, only `kAddTo` outputs are
routed through a temporary and accumulated; every output whose write-mode
is overwrite, write-inplace or no-op receives the kernel's write directly
— in particular a `kNullOp` output's prior contents may still be
overwritten, since the driver does not suppress the kernel's write for
it. -/
theorem laOpBackward_non_addTo_passthrough {α : Type} [Add α] (k : Kernel α)
    (inum onum : Nat) (inputs : List (TBlob α)) (req : List OpReq)
    (outputs : List (TBlob α)) (written : List (List α))
    (h1 : inputs.length = inum) (h2 : outputs.length = onum)
    (hflag : firstFlag outputs = some TypeFlag.kFloat32 ∨
             firstFlag outputs = some TypeFlag.kFloat64)
    (hcall : LaOpCaller k inum onum inputs outputs = .ok written) :
    ∃ r, LaOpBackward k inum onum inputs req outputs = .ok r ∧
      ∀ j, j < onum → req.getD j OpReq.kNullOp ≠ OpReq.kAddTo →
        r.getD j [] = written.getD j [] := by
  cases outputs with
  | nil => simp [firstFlag] at hflag
  | cons b rest =>
    have hok : sglDblOk b.type_flag_ = true := by
      rcases hflag with hf | hf <;>
        (simp only [firstFlag, Option.some.injEq] at hf; simp [sglDblOk, hf])
    refine ⟨_, laOpBackward_eval k inum onum inputs req b rest written h1 h2 hok hcall, ?_⟩
    intro j hj hreq
    rw [getD_map_range _ _ _ _ hj, if_neg hreq]

/-- C9, witness at a concrete input: a `kNullOp` output whose prior
contents [7, 8] are overwritten by the kernel's write [3, 4]. -/
theorem laOpBackward_non_addTo_passthrough_witness :
    ∃ r, LaOpBackward (fun _ => [[3, 4]]) 1 1 [⟨TypeFlag.kFloat64, [1]⟩]
        [OpReq.kNullOp] [⟨TypeFlag.kFloat64, ([7, 8] : List Int)⟩] = .ok r ∧
      ∀ j, j < 1 → [OpReq.kNullOp].getD j OpReq.kNullOp ≠ OpReq.kAddTo →
        r.getD j [] = [[3, 4]].getD j [] :=
  laOpBackward_non_addTo_passthrough (fun _ => [[3, 4]]) 1 1
    [⟨TypeFlag.kFloat64, [1]⟩] [OpReq.kNullOp] [⟨TypeFlag.kFloat64, [7, 8]⟩]
    [[3, 4]] rfl rfl (Or.inr rfl) rfl

/-- C10: both drivers decide the element type from the type tag of
`outputs[0]` alone: the unsupported-element-type failure is raised exactly
when that tag is neither single- nor double-precision float, and the
results of the drivers are unchanged under any modification of the type tags of
the input buffers and of the non-first output buffers (all buffers are
reinterpreted with the selected type; no other tag is inspected). -/
theorem laOp_drivers_type_dispatch {α : Type} [Add α] (k : Kernel α)
    (inum onum : Nat) (inputs : List (TBlob α)) (req : List OpReq)
    (outputs : List (TBlob α))
    (h1 : inputs.length = inum) (h2 : outputs.length = onum) (h0 : 1 ≤ onum) :
    ((LaOpForward k inum onum inputs req outputs = .error .unsupportedElementType ↔
        ∀ f, firstFlag outputs = some f → sglDblOk f = false) ∧
     (LaOpBackward k inum onum inputs req outputs = .error .unsupportedElementType ↔
        ∀ f, firstFlag outputs = some f → sglDblOk f = false)) ∧
    ∀ (inputs2 outputs2 : List (TBlob α)),
      inputs2.map TBlob.data = inputs.map TBlob.data →
      outputs2.map TBlob.data = outputs.map TBlob.data →
      firstFlag outputs2 = firstFlag outputs →
      LaOpForward k inum onum inputs2 req outputs2 =
        LaOpForward k inum onum inputs req outputs ∧
      LaOpBackward k inum onum inputs2 req outputs2 =
        LaOpBackward k inum onum inputs req outputs := by
  cases outputs with
  | nil => simp at h2; omega
  | cons b rest =>
  constructor
  · constructor
    · simp only [LaOpForward, h1, h2]
      by_cases hok : sglDblOk b.type_flag_ <;>
        simp [hok, firstFlag, laOpCaller_ne_unsupported]
    · simp only [LaOpBackward, h1, h2]
      by_cases hok : sglDblOk b.type_flag_
      · cases hcall : LaOpCaller k inum onum inputs (b :: rest) with
        | error e =>
          have := laOpCaller_ne_unsupported k inum onum inputs (b :: rest)
          rw [hcall] at this
          simp [hok, hcall, firstFlag]
          intro he
          exact absurd (he ▸ hcall) (laOpCaller_ne_unsupported k inum onum inputs (b :: rest))
        | ok written => simp [hok, hcall, firstFlag]
      · simp [hok, firstFlag]
  · intro inputs2 outputs2 hin hout hff
    have h1b : inputs2.length = inputs.length := by
      have := congrArg List.length hin
      simpa using this
    cases outputs2 with
    | nil => simp at hout
    | cons b2 rest2 =>
      have h2b : (b2 :: rest2).length = (b :: rest).length := by
        have := congrArg List.length hout
        simpa using this
      have hfeq : b2.type_flag_ = b.type_flag_ := by
        simpa [firstFlag] using hff
      have hc := laOpCaller_congr k inum onum inputs2 inputs (b2 :: rest2) (b :: rest) hin
      constructor
      · simp only [LaOpForward, h1, h2, h1b.trans h1, h2b.trans h2, hfeq, hc]
      · simp only [LaOpBackward, h1, h2, h1b.trans h1, h2b.trans h2, hfeq, hc, hout]

/-- C10, witness at concrete inputs: an integer-tagged first output (both
drivers fail with the unsupported-type error), and invariance of the
forward/backward results under changing the input buffer's type tag. -/
theorem laOp_drivers_type_dispatch_witness :
    ((LaOpForward (fun l => l) 1 1 [⟨TypeFlag.kInt32, ([5] : List Int)⟩]
        [OpReq.kWriteTo] [⟨TypeFlag.kInt32, [7]⟩] = .error .unsupportedElementType ↔
        ∀ f, firstFlag [⟨TypeFlag.kInt32, ([7] : List Int)⟩] = some f →
          sglDblOk f = false) ∧
     (LaOpBackward (fun l => l) 1 1 [⟨TypeFlag.kInt32, ([5] : List Int)⟩]
        [OpReq.kWriteTo] [⟨TypeFlag.kInt32, [7]⟩] = .error .unsupportedElementType ↔
        ∀ f, firstFlag [⟨TypeFlag.kInt32, ([7] : List Int)⟩] = some f →
          sglDblOk f = false)) ∧
    (LaOpForward (fun l => l) 1 1 [⟨TypeFlag.kFloat64, ([5] : List Int)⟩]
        [OpReq.kWriteTo] [⟨TypeFlag.kInt32, [7]⟩] =
      LaOpForward (fun l => l) 1 1 [⟨TypeFlag.kInt32, [5]⟩]
        [OpReq.kWriteTo] [⟨TypeFlag.kInt32, [7]⟩] ∧
     LaOpBackward (fun l => l) 1 1 [⟨TypeFlag.kFloat64, ([5] : List Int)⟩]
        [OpReq.kWriteTo] [⟨TypeFlag.kInt32, [7]⟩] =
      LaOpBackward (fun l => l) 1 1 [⟨TypeFlag.kInt32, [5]⟩]
        [OpReq.kWriteTo] [⟨TypeFlag.kInt32, [7]⟩]) :=
  ⟨(laOp_drivers_type_dispatch (fun l => l) 1 1 [⟨TypeFlag.kInt32, [5]⟩]
      [OpReq.kWriteTo] [⟨TypeFlag.kInt32, [7]⟩] rfl rfl (by decide)).1,
   (laOp_drivers_type_dispatch (fun l => l) 1 1 [⟨TypeFlag.kInt32, [5]⟩]
      [OpReq.kWriteTo] [⟨TypeFlag.kInt32, [7]⟩] rfl rfl (by decide)).2
     [⟨TypeFlag.kFloat64, [5]⟩] [⟨TypeFlag.kInt32, [7]⟩] rfl rfl rfl⟩

end LaOp
